import Mathlib

/-!
Verification development for the infection cluster detection service.

The embedding covers:
* the link predicate and cluster assembly loop of
  backend/services/cluster_detection.py (find_clusters_from_db,
  _check_temporal_spatial_link, get_cluster_statistics), and
* the relational cluster query of backend/database/db_utils.py
  (ClusterQueryBuilder.find_spatial_temporal_clusters).

Datetimes are modelled as whole minutes since an epoch (Int); one day is
1440 minutes.  Python datetime subtraction followed by the days attribute
floors the signed difference towards negative infinity, which is Int.fdiv
of the minute difference by 1440.  SQL DATE values are modelled as whole
day numbers (Int).  Patient, test, infection and location identifiers are
strings, compared and ordered exactly as Python compares strings
(lexicographically by code point).
-/

/-- Minutes in a day; the divisor used when a datetime difference is turned
into whole days. -/
def minutesPerDay : Int := 1440

/-- Day number of a datetime given in minutes: the Python date() projection
of a datetime. -/
def dateOf (m : Int) : Int := Int.fdiv m minutesPerDay

/-- Python expression abs((d1 - d2).days): the days attribute floors the
signed difference, then abs is applied. -/
def timeDiffDays (c1 c2 : Int) : Int := |Int.fdiv (c1 - c2) minutesPerDay|

/-- Code-point comparison of characters, as Python compares single
characters. -/
def charLtb (a b : Char) : Bool := decide (a.val.toNat < b.val.toNat)

/-- Lexicographic strict comparison of character lists, as Python compares
strings. -/
def strLtData : List Char → List Char → Bool
  | [], [] => false
  | [], _ :: _ => true
  | _ :: _, [] => false
  | a :: as, b :: bs =>
    if charLtb a b then true
    else if charLtb b a then false
    else strLtData as bs

/-- Python string comparison a < b (lexicographic by code point). -/
def strLtb (a b : String) : Bool := strLtData a.data b.data

/-- Row of the transfers table (a stay of one patient in one location);
ward_in_time and ward_out_time are datetimes in minutes. -/
structure Transfer where
  transfer_id : String
  patient_id : String
  ward_in_time : Int
  ward_out_time : Int
  location : String
  deriving DecidableEq, Repr

/-- Row of the microbiology table (one test result); collection_date is a
datetime in minutes. -/
structure Microbiology where
  test_id : String
  patient_id : String
  collection_date : Int
  infection : String
  result : String
  deriving DecidableEq, Repr

/-- The immutable snapshot the detection run reads: all transfer rows and
all microbiology rows, in table order. -/
structure Snapshot where
  transfers : List Transfer
  microbiology : List Microbiology
  deriving DecidableEq, Repr

/-- Overlap test for one pair of stays, from the inner loop of
_check_temporal_spatial_link: same location and
max(ward_in_1, ward_in_2) less or equal min(ward_out_1, ward_out_2). -/
def staysOverlap (t1 t2 : Transfer) : Bool :=
  t1.location == t2.location &&
    decide (max t1.ward_in_time t2.ward_in_time ≤ min t1.ward_out_time t2.ward_out_time)

/-- The link predicate _check_temporal_spatial_link: reject when the
floored-then-absolute day difference exceeds time_window; accept on a
temporal match alone when location_overlap is false; otherwise search the
cross product of the two stay lists for an overlapping stay pair in a
shared location. -/
def check_temporal_spatial_link (test1 test2 : Microbiology)
    (p1_transfers p2_transfers : List Transfer)
    (time_window : Int) (location_overlap : Bool) : Bool :=
  if timeDiffDays test1.collection_date test2.collection_date > time_window then false
  else if location_overlap = false then true
  else p1_transfers.any fun t1 => p2_transfers.any fun t2 => staysOverlap t1 t2

/-- Python set insertion: sets are modelled as duplicate-free lists in
insertion order; inserting an existing element is a no-op. -/
def setInsert (s : List String) (x : String) : List String :=
  if x ∈ s then s else s ++ [x]

/-- A cluster as assembled by find_clusters_from_db: a patient set and a
date range (start_date and end_date are day numbers, written out as ISO
dates by the service). -/
structure Cluster where
  patients : List String
  start_date : Int
  end_date : Int
  deriving DecidableEq, Repr

/-- Python tuple(sorted((p1, p2))): the canonical unordered patient pair. -/
def pySortedPair (p q : String) : String × String :=
  if strLtb q p then (q, p) else (p, q)

/-- One step of the add-to-existing-cluster-or-create loop of
find_clusters_from_db: scan the cluster list for the first cluster
containing either patient; if found, add both patients to its patient set
(dates untouched); otherwise append a new cluster whose date range is the
min and max of the two collection dates, projected to days. -/
def addPairToClusters : List Cluster → Microbiology → Microbiology → List Cluster
  | [], test1, test2 =>
    [⟨setInsert [test1.patient_id] test2.patient_id,
      dateOf (min test1.collection_date test2.collection_date),
      dateOf (max test1.collection_date test2.collection_date)⟩]
  | c :: cs, test1, test2 =>
    if test1.patient_id ∈ c.patients ∨ test2.patient_id ∈ c.patients then
      ⟨setInsert (setInsert c.patients test1.patient_id) test2.patient_id,
        c.start_date, c.end_date⟩ :: cs
    else c :: addPairToClusters cs test1 test2

/-- State threaded through the pair loop of find_clusters_from_db for one
infection: the patient_pairs dedup set, the cluster list, and a ghost log
recording every invocation of the link predicate together with its
result. -/
structure FoldState where
  patient_pairs : List (String × String)
  clusters : List Cluster
  evalLog : List ((String × String) × Bool)
  deriving DecidableEq, Repr

/-- Stay lookup for one patient: the rows of the transfers table with that
patient_id, in table order (the Python code prefetches transfers of
positive patients and groups them by patient; looked up at a positive
patient this is the same filter). -/
def transfersOf (transfers : List Transfer) (pid : String) : List Transfer :=
  transfers.filter fun t => t.patient_id == pid

/-- Body of the double loop of find_clusters_from_db for one candidate
test pair: skip self pairs, skip pairs already in patient_pairs, otherwise
evaluate the link predicate (logged) and, on success, record the pair and
add it to the cluster list. -/
def pairStep (transfers : List Transfer) (time_window : Int) (location_overlap : Bool)
    (s : FoldState) (pr : Microbiology × Microbiology) : FoldState :=
  if pr.1.patient_id = pr.2.patient_id then s
  else
    let pair := pySortedPair pr.1.patient_id pr.2.patient_id
    if pair ∈ s.patient_pairs then s
    else
      let r := check_temporal_spatial_link pr.1 pr.2
        (transfersOf transfers pr.1.patient_id) (transfersOf transfers pr.2.patient_id)
        time_window location_overlap
      if r then
        ⟨s.patient_pairs ++ [pair], addPairToClusters s.clusters pr.1 pr.2,
          s.evalLog ++ [(pair, r)]⟩
      else ⟨s.patient_pairs, s.clusters, s.evalLog ++ [(pair, r)]⟩

/-- All index pairs i < j of the test list, in the order the double loop
visits them. -/
def allTestPairs : List Microbiology → List (Microbiology × Microbiology)
  | [] => []
  | t :: ts => (ts.map fun u => (t, u)) ++ allTestPairs ts

/-- The whole pair loop of find_clusters_from_db for one infection,
starting from an empty pair set and an empty cluster list. -/
def processInfection (transfers : List Transfer) (tests : List Microbiology)
    (time_window : Int) (location_overlap : Bool) : FoldState :=
  (allTestPairs tests).foldl (pairStep transfers time_window location_overlap) ⟨[], [], []⟩

/-- One insertion into the tests_by_infection dictionary: append the test
to the list of its infection, creating the key at the end on first
sight (Python dictionaries preserve insertion order). -/
def addToInfectionGroups : List (String × List Microbiology) → Microbiology →
    List (String × List Microbiology)
  | [], t => [(t.infection, [t])]
  | (k, v) :: rest, t =>
    if k = t.infection then (k, v ++ [t]) :: rest
    else (k, v) :: addToInfectionGroups rest t

/-- The tests_by_infection dictionary of find_clusters_from_db. -/
def groupByInfection (tests : List Microbiology) : List (String × List Microbiology) :=
  tests.foldl addToInfectionGroups []

/-- Ordered insertion for the Python sorted builtin on strings. -/
def insertSortedStr (x : String) : List String → List String
  | [] => [x]
  | y :: ys => if strLtb y x then y :: insertSortedStr x ys else x :: y :: ys

/-- Python sorted(list(s)) on a list of strings. -/
def pySorted (l : List String) : List String :=
  l.foldl (fun acc x => insertSortedStr x acc) []

/-- Final serialisation step of find_clusters_from_db: the patient set of
each cluster is turned into a sorted list. -/
def sortClusterPatients (c : Cluster) : Cluster :=
  ⟨pySorted c.patients, c.start_date, c.end_date⟩

/-- find_clusters_from_db: filter the positive tests, group them by
infection, run the pair loop per infection, and sort each patient set for
output.  The result keeps the dictionary as an association list in key
insertion order; an infection with positive tests but no linked pair keeps
an empty cluster list. -/
def find_clusters_from_db (db : Snapshot) (time_window : Int) (location_overlap : Bool) :
    List (String × List Cluster) :=
  (groupByInfection (db.microbiology.filter fun t => t.result == "positive")).map fun g =>
    (g.1, ((processInfection db.transfers g.2 time_window location_overlap).clusters).map
      sortClusterPatients)

/-- Cluster list the returned dictionary associates with an infection; an
absent key reads as no clusters. -/
def clustersFor (res : List (String × List Cluster)) (inf : String) : List Cluster :=
  (((res.find? fun g => g.1 == inf).map fun g => g.2).getD [])

/-- Ghost companion of find_clusters_from_db: for each infection, the log
of link-predicate invocations (canonical patient pair and result) made by
the pair loop, in order. -/
def find_clusters_eval_log (db : Snapshot) (time_window : Int) (location_overlap : Bool) :
    List (String × List ((String × String) × Bool)) :=
  (groupByInfection (db.microbiology.filter fun t => t.result == "positive")).map fun g =>
    (g.1, (processInfection db.transfers g.2 time_window location_overlap).evalLog)

/-- Evaluation log of the pair loop for one infection; an absent key reads
as an empty log. -/
def evalLogFor (res : List (String × List ((String × String) × Bool))) (inf : String) :
    List ((String × String) × Bool) :=
  (((res.find? fun g => g.1 == inf).map fun g => g.2).getD [])

/-- Result record of get_cluster_statistics. -/
structure Statistics where
  total_transfers : Nat
  total_tests : Nat
  positive_tests : Nat
  unique_patients : Nat
  unique_locations : Nat
  total_clusters : Nat
  clusters_by_infection : List (String × Nat)
  deriving DecidableEq, Repr

/-- First occurrence of every element, in order: the SQL DISTINCT
projection of a column. -/
def firstSeen (l : List String) : List String :=
  l.foldl (fun acc x => if x ∈ acc then acc else acc ++ [x]) []

/-- Count of distinct values in a column. -/
def distinctCount (l : List String) : Nat := (firstSeen l).length

/-- get_cluster_statistics: table counts plus a fresh run of
find_clusters_from_db with its default arguments (time_window 14,
location_overlap true); total_clusters sums the lengths of the per
infection cluster lists. -/
def get_cluster_statistics (db : Snapshot) : Statistics :=
  let clusters := find_clusters_from_db db 14 true
  ⟨db.transfers.length,
   db.microbiology.length,
   (db.microbiology.filter fun t => t.result == "positive").length,
   distinctCount (db.transfers.map fun t => t.patient_id),
   distinctCount (db.transfers.map fun t => t.location),
   (clusters.map fun g => g.2.length).sum,
   clusters.map fun g => (g.1, g.2.length)⟩

/-- Row of the patient_infection_timeline view consumed by the relational
cluster query: one (positive test, stay) combination with infection_date a
day number and a flag telling whether the infection fell during the
stay. -/
structure TimelineRow where
  patient_id : String
  infection : String
  infection_date : Int
  location : String
  ward_in_time : Int
  ward_out_time : Int
  infection_during_stay : Bool
  deriving DecidableEq, Repr

/-- Row of the infection_contacts CTE of find_spatial_temporal_clusters. -/
structure ContactRow where
  patient_1 : String
  patient_2 : String
  infection_date_1 : Int
  infection_date_2 : Int
  location : String
  location_overlap : Bool
  days_between_infections : Int
  deriving DecidableEq, Repr

/-- The infection_contacts CTE: self join of the timeline on equal
location, different patient and equal infection, restricted to the target
infection with both sides flagged infection_during_stay; each row carries
the inclusive stay-overlap flag and the absolute day difference of the two
infection dates. -/
def infection_contacts (timeline : List TimelineRow) (infection_type : String) :
    List ContactRow :=
  timeline.flatMap fun r1 =>
    (timeline.filter fun r2 =>
        r1.location == r2.location && r1.patient_id != r2.patient_id &&
        r1.infection == r2.infection && r1.infection == infection_type &&
        r1.infection_during_stay && r2.infection_during_stay).map fun r2 =>
      ⟨r1.patient_id, r2.patient_id, r1.infection_date, r2.infection_date, r1.location,
        decide (r1.ward_in_time ≤ r2.ward_out_time ∧ r2.ward_in_time ≤ r1.ward_out_time),
        |r1.infection_date - r2.infection_date|⟩

/-- Output row of find_spatial_temporal_clusters. -/
structure ClusterRow where
  location : String
  cluster_size : Nat
  cluster_start : Int
  cluster_end : Int
  cluster_duration_days : Int
  avg_days_between_infections : Rat
  deriving DecidableEq, Repr

/-- PostgreSQL ROUND(numeric, 1) for the non-negative averages produced
here: round half away from zero to one decimal. -/
def pgRound1 (q : Rat) : Rat := ((q * 10 + 1 / 2).floor : Rat) / 10

/-- Minimum of a list of integers (the lists aggregated here are never
empty: every GROUP BY group has at least one row). -/
def listMinInt : List Int → Int
  | [] => 0
  | x :: xs => xs.foldl min x

/-- Maximum of a list of integers. -/
def listMaxInt : List Int → Int
  | [] => 0
  | x :: xs => xs.foldl max x

/-- One GROUP BY location aggregate of the potential_clusters CTE:
cluster_size is COUNT(DISTINCT patient_1) plus COUNT(DISTINCT patient_2),
cluster_start and cluster_end are the extreme infection dates among the
matched pairs, duration is end minus start plus one, and the mean day gap
is rounded to one decimal. -/
def groupRow (rows : List ContactRow) (loc : String) : ClusterRow :=
  let here := rows.filter fun c => c.location == loc
  let size := distinctCount (here.map fun c => c.patient_1)
      + distinctCount (here.map fun c => c.patient_2)
  let start := listMinInt (here.map fun c => min c.infection_date_1 c.infection_date_2)
  let stop := listMaxInt (here.map fun c => max c.infection_date_1 c.infection_date_2)
  let avg : Rat := (here.map fun c => (c.days_between_infections : Rat)).sum / (here.length : Rat)
  ⟨loc, size, start, stop, stop - start + 1, pgRound1 avg⟩

/-- ORDER BY cluster_size DESC, cluster_start DESC as a total Boolean
order: a comes no later than b. -/
def rowOrder (a b : ClusterRow) : Bool :=
  if a.cluster_size == b.cluster_size then decide (b.cluster_start ≤ a.cluster_start)
  else decide (b.cluster_size < a.cluster_size)

/-- Ordered insertion for the final ORDER BY. -/
def insertRow (x : ClusterRow) : List ClusterRow → List ClusterRow
  | [] => [x]
  | y :: ys => if rowOrder y x then y :: insertRow x ys else x :: y :: ys

/-- Sort of the output rows by the final ORDER BY. -/
def sortRows (l : List ClusterRow) : List ClusterRow :=
  l.foldl (fun acc x => insertRow x acc) []

/-- The relational cluster query find_spatial_temporal_clusters: keep the
contacts with stay overlap and day gap within the contact window, group
them by location, keep the groups whose cluster_size reaches
min_cluster_size, and order by size then start date, both descending. -/
def find_spatial_temporal_clusters (timeline : List TimelineRow) (infection_type : String)
    (contact_window_days : Int) (min_cluster_size : Nat) : List ClusterRow :=
  let contacts := (infection_contacts timeline infection_type).filter fun c =>
    c.location_overlap && decide (c.days_between_infections ≤ contact_window_days)
  let locs := firstSeen (contacts.map fun c => c.location)
  sortRows ((locs.map (groupRow contacts)).filter fun r => min_cluster_size ≤ r.cluster_size)

/-- Whole days of the absolute datetime difference.  Modelled from the
words of the spec: days_between is the whole-day magnitude of the absolute
difference of the two collection dates. -/
def spec_days_between (c1 c2 : Int) : Int := Int.fdiv |c1 - c2| minutesPerDay

/-- Snapshot with five positive tests for infection X on days 0, 1, 10, 11
and 5 (in minutes), no transfers; with time_window 5 and no location
requirement the pair loop first builds a cluster from PA and PB, later a
second one from PC and PD, and then the linking pair PC and PE bridges the
two clusters. -/
def exBridge : Snapshot :=
  ⟨[],
   [⟨"M1", "PA", 0, "X", "positive"⟩,
    ⟨"M2", "PB", 1440, "X", "positive"⟩,
    ⟨"M3", "PC", 14400, "X", "positive"⟩,
    ⟨"M4", "PD", 15840, "X", "positive"⟩,
    ⟨"M5", "PE", 7200, "X", "positive"⟩]⟩

/-- Snapshot with three positive tests for infection X on days 0, 1 and 5,
no transfers; with time_window 5 and no location requirement the pair PA
PB creates a cluster on days 0 to 1 and the test of PC on day 5 is merged
into it. -/
def exMergeLate : Snapshot :=
  ⟨[],
   [⟨"M1", "PA", 0, "X", "positive"⟩,
    ⟨"M2", "PB", 1440, "X", "positive"⟩,
    ⟨"M3", "PC", 7200, "X", "positive"⟩]⟩

/-- Snapshot where patient P1 has positive tests on days 0 and 5 and
patient P2 one on day 6; with time_window 2 the first test pair of P1 and
P2 fails the link predicate and the second succeeds. -/
def exRepeat : Snapshot :=
  ⟨[],
   [⟨"M1", "P1", 0, "X", "positive"⟩,
    ⟨"M2", "P1", 7200, "X", "positive"⟩,
    ⟨"M3", "P2", 8640, "X", "positive"⟩]⟩

/-- Test of patient P1 collected at minute 0 (midnight of day 0). -/
def exMidnight : Microbiology := ⟨"M1", "P1", 0, "X", "positive"⟩

/-- Test of patient P2 collected at minute 2160 (noon of day 1). -/
def exNoon : Microbiology := ⟨"M2", "P2", 2160, "X", "positive"⟩

/-- Test of patient P2 collected at minute 1440 (midnight of day 1). -/
def exNextDay : Microbiology := ⟨"M2", "P2", 1440, "X", "positive"⟩

/-- Timeline with two patients of infection X sharing location W with
overlapping stays and infection dates one day apart: exactly two distinct
qualifying patients at that location. -/
def exTimeline : List TimelineRow :=
  [⟨"P1", "X", 0, "W", 0, 10, true⟩,
   ⟨"P2", "X", 1, "W", 0, 10, true⟩]

/-- C1 is false on the code: in the exBridge run the linking pair PC PE
has PE in the first cluster and PC in the second; the assembler adds PC to
the first cluster and leaves it in the second, so PC ends up in the
patient sets of two different clusters of infection X. -/
theorem c1_bridging_counterexample :
    (clustersFor (find_clusters_from_db exBridge 5 false) "X").countP
      (fun c => decide ("PC" ∈ c.patients)) = 2 := by decide

/-- C2 is false on the code: in the exMergeLate run the test of PC on day
5 is merged into the cluster of PA and PB, but the date range stays at
days 0 to 1 and is never widened to include day 5. -/
theorem c2_no_widening_counterexample :
    clustersFor (find_clusters_from_db exMergeLate 5 false) "X" =
      [⟨["PA", "PB", "PC"], 0, 1⟩] ∧
    (exMergeLate.microbiology.filter fun t => t.patient_id == "PC").map
      (fun t => dateOf t.collection_date) = [5] ∧ ¬ ((5 : Int) ≤ 1) := by decide

/-- C4 is false on the code: in the exRepeat run the link predicate is
invoked twice for the patient pair P1 P2 — the first test pair fails and
is not recorded in patient_pairs, so the second test pair is evaluated
again. -/
theorem c4_reevaluation_counterexample :
    (evalLogFor (find_clusters_eval_log exRepeat 2 false) "X").countP
      (fun e => e.1 == ("P1", "P2")) = 2 := by decide

/-- C5 is false as stated: for tests at midnight of day 0 and noon of day
1 the whole-day magnitude of the absolute difference is 1, but the code
floors the signed difference first and gets 2, so with time_window 1 and
no location requirement the predicate returns false where the claimed
formula would keep the pair within the window. -/
theorem c5_floor_counterexample :
    timeDiffDays exMidnight.collection_date exNoon.collection_date = 2 ∧
    spec_days_between exMidnight.collection_date exNoon.collection_date = 1 ∧
    check_temporal_spatial_link exMidnight exNoon [] [] 1 false = false := by decide

/-- C10 is false on the code: swapping the two tests collected at midnight
of day 0 and noon of day 1 flips the floored day difference from 2 to 1,
so with time_window 1 the predicate answers false in one order and true in
the other. -/
theorem c10_asymmetry_counterexample :
    check_temporal_spatial_link exMidnight exNoon [] [] 1 false = false ∧
    check_temporal_spatial_link exNoon exMidnight [] [] 1 false = true := by decide

/-- C3: the code contradicts its own contract: at a location with exactly
two qualifying patients the query reports cluster_size 4 — it adds
COUNT(DISTINCT patient_1) and COUNT(DISTINCT patient_2), each 2 — so with
min_cluster_size 3 the location is returned instead of excluded. -/
theorem c3_double_count_bug :
    (find_spatial_temporal_clusters exTimeline "X" 7 3).map
      (fun r => (r.location, r.cluster_size)) = [("W", 4)] ∧
    distinctCount ((exTimeline.filter fun r => r.location == "W").map
      (fun r => r.patient_id)) = 2 := by decide

/-- C7: whenever the day gap computed by the code is within time_window
and require_location_overlap is false, the link predicate returns true;
the stay lists are universally quantified, so no stay record influences
the answer. -/
theorem c7_temporal_only_link (test1 test2 : Microbiology) (s1 s2 : List Transfer)
    (time_window : Int)
    (h : timeDiffDays test1.collection_date test2.collection_date ≤ time_window) :
    check_temporal_spatial_link test1 test2 s1 s2 time_window false = true := by
  unfold check_temporal_spatial_link
  rw [if_neg (not_lt.mpr h)]
  simp

/-- C7 witness: tests one day apart, window 14, no location requirement. -/
theorem c7_temporal_only_link_witness :
    check_temporal_spatial_link exMidnight exNextDay [] [] 14 false = true :=
  c7_temporal_only_link exMidnight exNextDay [] [] 14 (by decide)

/-- C5 as amended: days_between is the absolute value of the floored
signed day difference (timeDiffDays, by definition the Python expression
abs of fdiv), and whenever it exceeds time_window the predicate returns
false regardless of the location flag and of any stay record. -/
theorem c5_window_reject (test1 test2 : Microbiology) (s1 s2 : List Transfer)
    (time_window : Int) (location_overlap : Bool)
    (h : time_window < timeDiffDays test1.collection_date test2.collection_date) :
    check_temporal_spatial_link test1 test2 s1 s2 time_window location_overlap = false := by
  unfold check_temporal_spatial_link
  rw [if_pos h]

/-- C5 witness: tests five days apart, window 2. -/
theorem c5_window_reject_witness :
    check_temporal_spatial_link exMidnight ⟨"M9", "P9", 7200, "X", "positive"⟩ [] [] 2
      true = false :=
  c5_window_reject exMidnight ⟨"M9", "P9", 7200, "X", "positive"⟩ [] [] 2 true (by decide)

/-- C9: the total_clusters statistic is the sum of the lengths of the
cluster lists of a fresh run of find_clusters_from_db with the default
arguments on the same snapshot. -/
theorem c9_total_clusters_sum (db : Snapshot) :
    (get_cluster_statistics db).total_clusters =
      ((find_clusters_from_db db 14 true).map fun g => g.2.length).sum := rfl

/-- C8: with the temporal test passed and location_overlap true, the
predicate answers true exactly when some pair in the cross product of the
two stay lists shares a location and has inclusively overlapping
intervals. -/
theorem c8_overlap_characterisation (test1 test2 : Microbiology) (s1 s2 : List Transfer)
    (time_window : Int)
    (h : timeDiffDays test1.collection_date test2.collection_date ≤ time_window) :
    (check_temporal_spatial_link test1 test2 s1 s2 time_window true = true ↔
      ∃ a ∈ s1, ∃ b ∈ s2, a.location = b.location ∧
        max a.ward_in_time b.ward_in_time ≤ min a.ward_out_time b.ward_out_time) := by
  unfold check_temporal_spatial_link
  rw [if_neg (not_lt.mpr h)]
  simp [staysOverlap, List.any_eq_true]

/-- C8 witness: stays on days 10 to 20 and 20 to 30 at the same location
count as overlapping (inclusive boundary), so the predicate links the
pair. -/
theorem c8_overlap_characterisation_witness :
    check_temporal_spatial_link exMidnight exNextDay
      [⟨"T1", "P1", 10, 20, "W"⟩] [⟨"T2", "P2", 20, 30, "W"⟩] 14 true = true :=
  (c8_overlap_characterisation exMidnight exNextDay
      [⟨"T1", "P1", 10, 20, "W"⟩] [⟨"T2", "P2", 20, 30, "W"⟩] 14 (by decide)).mpr
    ⟨⟨"T1", "P1", 10, 20, "W"⟩, by simp, ⟨"T2", "P2", 20, 30, "W"⟩, by simp,
      rfl, by decide⟩

/-- The per-stay overlap test is symmetric in the two stays. -/
theorem staysOverlap_comm (a b : Transfer) : staysOverlap a b = staysOverlap b a := by
  rw [Bool.eq_iff_iff]
  simp only [staysOverlap, Bool.and_eq_true, beq_iff_eq, decide_eq_true_eq]
  constructor
  · rintro ⟨h1, h2⟩
    exact ⟨h1.symm, by rwa [max_comm, min_comm]⟩
  · rintro ⟨h1, h2⟩
    exact ⟨h1.symm, by rwa [max_comm, min_comm]⟩

/-- Searching the cross product of two stay lists for an overlap does not
depend on the order of the two lists. -/
theorem cross_any_comm (l1 l2 : List Transfer) :
    (l1.any fun a => l2.any fun b => staysOverlap a b) =
      (l2.any fun a => l1.any fun b => staysOverlap a b) := by
  rw [Bool.eq_iff_iff]
  simp only [List.any_eq_true]
  constructor
  · rintro ⟨a, ha, b, hb, h⟩
    exact ⟨b, hb, a, ha, by rwa [staysOverlap_comm]⟩
  · rintro ⟨a, ha, b, hb, h⟩
    exact ⟨b, hb, a, ha, by rwa [staysOverlap_comm]⟩

/-- When two datetimes differ by a whole number of days, the floored
absolute day difference is the same in both orders. -/
theorem timeDiffDays_comm_of_dvd (c1 c2 : Int) (h : minutesPerDay ∣ c1 - c2) :
    timeDiffDays c1 c2 = timeDiffDays c2 c1 := by
  obtain ⟨k, hk⟩ := h
  have h2 : c2 - c1 = minutesPerDay * (-k) := by rw [mul_neg, ← hk]; ring
  unfold timeDiffDays
  rw [hk, h2, Int.mul_fdiv_cancel_left _ (by decide),
    Int.mul_fdiv_cancel_left _ (by decide), abs_neg]

/-- C10 as amended: the link predicate is symmetric in its two cases
whenever the two collection dates differ by a whole number of days; for a
fractional-day difference the floor-then-abs day computation can differ
between the two orders. -/
theorem c10_symmetric_on_whole_days (test1 test2 : Microbiology) (s1 s2 : List Transfer)
    (time_window : Int) (location_overlap : Bool)
    (h : minutesPerDay ∣ test1.collection_date - test2.collection_date) :
    check_temporal_spatial_link test1 test2 s1 s2 time_window location_overlap =
      check_temporal_spatial_link test2 test1 s2 s1 time_window location_overlap := by
  unfold check_temporal_spatial_link
  rw [timeDiffDays_comm_of_dvd _ _ h]
  split_ifs
  · rfl
  · rfl
  · exact cross_any_comm s1 s2

/-- C10 witness: tests exactly one day apart are handled symmetrically. -/
theorem c10_symmetric_on_whole_days_witness :
    check_temporal_spatial_link exMidnight exNextDay [] [] 3 true =
      check_temporal_spatial_link exNextDay exMidnight [] [] 3 true :=
  c10_symmetric_on_whole_days exMidnight exNextDay [] [] 3 true (by decide)

/-- C2 as amended: when a linked pair is merged into an existing cluster
(some cluster already contains one of the two patients), only patient sets
change: the start_date and end_date of every cluster in the list are left
exactly as they were; date ranges are fixed at cluster creation from the
creating pair and are never widened. -/
theorem c2_merge_preserves_dates (cs : List Cluster) (test1 test2 : Microbiology)
    (h : ∃ c ∈ cs, test1.patient_id ∈ c.patients ∨ test2.patient_id ∈ c.patients) :
    (addPairToClusters cs test1 test2).map (fun c => (c.start_date, c.end_date)) =
      cs.map fun c => (c.start_date, c.end_date) := by
  induction cs with
  | nil =>
    obtain ⟨c, hc, _⟩ := h
    exact absurd hc (List.not_mem_nil c)
  | cons c cs ih =>
    by_cases hc : test1.patient_id ∈ c.patients ∨ test2.patient_id ∈ c.patients
    · simp only [addPairToClusters, if_pos hc, List.map_cons]
    · simp only [addPairToClusters, if_neg hc, List.map_cons]
      have htail : ∃ d ∈ cs, test1.patient_id ∈ d.patients ∨ test2.patient_id ∈ d.patients := by
        obtain ⟨d, hd, hmem⟩ := h
        rcases List.mem_cons.mp hd with rfl | hdcs
        · exact absurd hmem hc
        · exact ⟨d, hdcs, hmem⟩
      rw [ih htail]

/-- C2 witness: merging the pair P1 P2 into a cluster already containing
P1 with date range days 5 to 6 leaves the range at days 5 to 6. -/
theorem c2_merge_preserves_dates_witness :
    (addPairToClusters [⟨["P1"], 5, 6⟩] exMidnight exNoon).map
      (fun c => (c.start_date, c.end_date)) = [(5, 6)] := by
  rw [c2_merge_preserves_dates _ _ _ ⟨⟨["P1"], 5, 6⟩, by decide, Or.inl (by decide)⟩]
  decide

/-- Membership after a Python set insertion. -/
theorem mem_setInsert (s : List String) (x p : String) :
    p ∈ setInsert s x ↔ p ∈ s ∨ p = x := by
  unfold setInsert
  by_cases h : x ∈ s
  · rw [if_pos h]
    exact ⟨Or.inl, fun hp => hp.elim id fun he => he ▸ h⟩
  · rw [if_neg h]
    simp

/-- Every patient of a cluster produced by one assembly step was already a
patient of some input cluster, or is one of the two linked patients. -/
theorem mem_addPairToClusters (cs : List Cluster) (test1 test2 : Microbiology)
    (d : Cluster) (hd : d ∈ addPairToClusters cs test1 test2) (p : String)
    (hp : p ∈ d.patients) :
    (∃ c ∈ cs, p ∈ c.patients) ∨ p = test1.patient_id ∨ p = test2.patient_id := by
  induction cs with
  | nil =>
    simp only [addPairToClusters, List.mem_singleton] at hd
    subst hd
    rcases (mem_setInsert _ _ _).mp hp with h | h
    · right; left; simpa using h
    · right; right; exact h
  | cons c cs ih =>
    by_cases hc : test1.patient_id ∈ c.patients ∨ test2.patient_id ∈ c.patients
    · simp only [addPairToClusters, if_pos hc] at hd
      rcases List.mem_cons.mp hd with rfl | hdcs
      · rcases (mem_setInsert _ _ _).mp hp with h1 | h1
        · rcases (mem_setInsert _ _ _).mp h1 with h2 | h2
          · exact Or.inl ⟨c, List.mem_cons_self c cs, h2⟩
          · exact Or.inr (Or.inl h2)
        · exact Or.inr (Or.inr h1)
      · exact Or.inl ⟨d, List.mem_cons_of_mem c hdcs, hp⟩
    · simp only [addPairToClusters, if_neg hc] at hd
      rcases List.mem_cons.mp hd with rfl | hdcs
      · exact Or.inl ⟨d, List.mem_cons_self d cs, hp⟩
      · rcases ih hdcs with ⟨c0, hc0, hpc0⟩ | h | h
        · exact Or.inl ⟨c0, List.mem_cons_of_mem c hc0, hpc0⟩
        · exact Or.inr (Or.inl h)
        · exact Or.inr (Or.inr h)

/-- Pairwise disjointness of the patient sets of a cluster list. -/
def PairwiseDisjoint (cs : List Cluster) : Prop :=
  cs.Pairwise fun c d => ∀ p, p ∈ c.patients → p ∉ d.patients

/-- C1 as amended: the assembly step keeps the patient sets of the
clusters pairwise disjoint provided at most one existing cluster contains
an endpoint of the newly linked pair.  When the pair bridges two existing
clusters the code adds both patients to the first one only and the shared
patient then sits in two clusters, as the bridging counterexample
shows. -/
theorem c1_step_preserves_disjointness (cs : List Cluster) (test1 test2 : Microbiology)
    (hdisj : PairwiseDisjoint cs)
    (hone : cs.countP
      (fun c => decide (test1.patient_id ∈ c.patients ∨ test2.patient_id ∈ c.patients))
      ≤ 1) :
    PairwiseDisjoint (addPairToClusters cs test1 test2) := by
  induction cs with
  | nil =>
    simp only [addPairToClusters]
    exact List.pairwise_singleton _ _
  | cons c cs ih =>
    rw [List.countP_cons] at hone
    rcases List.pairwise_cons.mp hdisj with ⟨hhead, htail⟩
    by_cases hc : test1.patient_id ∈ c.patients ∨ test2.patient_id ∈ c.patients
    · simp only [addPairToClusters, if_pos hc]
      have hzero : cs.countP
          (fun c => decide (test1.patient_id ∈ c.patients ∨ test2.patient_id ∈ c.patients))
          = 0 := by
        rw [if_pos (by simpa using hc)] at hone
        omega
      rw [PairwiseDisjoint, List.pairwise_cons]
      refine ⟨?_, htail⟩
      intro d hd p hp hpd
      have hdc : ¬ (test1.patient_id ∈ d.patients ∨ test2.patient_id ∈ d.patients) := by
        simpa using List.countP_eq_zero.mp hzero d hd
      rcases (mem_setInsert _ _ _).mp hp with h1 | h1
      · rcases (mem_setInsert _ _ _).mp h1 with h2 | h2
        · exact hhead d hd p h2 hpd
        · exact hdc (Or.inl (h2 ▸ hpd))
      · exact hdc (Or.inr (h1 ▸ hpd))
    · simp only [addPairToClusters, if_neg hc]
      have hone2 : cs.countP
          (fun c => decide (test1.patient_id ∈ c.patients ∨ test2.patient_id ∈ c.patients))
          ≤ 1 := by
        rw [if_neg (by simpa using hc)] at hone
        omega
      rw [PairwiseDisjoint, List.pairwise_cons]
      refine ⟨?_, ih htail hone2⟩
      intro d hd p hp hpd
      rcases mem_addPairToClusters cs test1 test2 d hd p hpd with ⟨c0, hc0, hpc0⟩ | h | h
      · exact hhead c0 hc0 p hp hpc0
      · exact hc (Or.inl (h ▸ hp))
      · exact hc (Or.inr (h ▸ hp))

/-- C1 witness: adding the linked pair P1 P2 to a single existing cluster
containing P1 keeps the cluster patient sets pairwise disjoint. -/
theorem c1_step_preserves_disjointness_witness :
    PairwiseDisjoint (addPairToClusters [⟨["P1"], 0, 0⟩] exMidnight exNoon) :=
  c1_step_preserves_disjointness [⟨["P1"], 0, 0⟩] exMidnight exNoon
    (List.pairwise_singleton _ _) (by decide)

/-- Number of logged link-predicate invocations for one canonical patient
pair that returned true. -/
def countTrue (pq : String × String) (log : List ((String × String) × Bool)) : Nat :=
  log.countP fun e => decide (e.1 = pq) && e.2

/-- Loop invariant of the pair loop: a canonical pair has exactly one
successful logged evaluation when it sits in patient_pairs and none
otherwise. -/
def PairLogInv (s : FoldState) : Prop :=
  ∀ pq, countTrue pq s.evalLog = if pq ∈ s.patient_pairs then 1 else 0

/-- countTrue distributes over log concatenation. -/
theorem countTrue_append (pq : String × String) (l1 l2 : List ((String × String) × Bool)) :
    countTrue pq (l1 ++ l2) = countTrue pq l1 + countTrue pq l2 :=
  List.countP_append _ l1 l2

/-- A failing evaluation contributes nothing to countTrue. -/
theorem countTrue_false_single (pq pair : String × String) :
    countTrue pq [(pair, false)] = 0 := by
  simp [countTrue]

/-- A successful evaluation contributes one to its own pair only. -/
theorem countTrue_true_single (pq pair : String × String) :
    countTrue pq [(pair, true)] = if pair = pq then 1 else 0 := by
  by_cases h : pair = pq <;> simp [countTrue, List.countP_cons, h]

/-- pairStep on a self pair is the identity. -/
theorem pairStep_self (transfers : List Transfer) (time_window : Int)
    (location_overlap : Bool) (s : FoldState) (pr : Microbiology × Microbiology)
    (h : pr.1.patient_id = pr.2.patient_id) :
    pairStep transfers time_window location_overlap s pr = s := by
  simp [pairStep, h]

/-- pairStep on a pair already recorded in patient_pairs is the
identity. -/
theorem pairStep_skip (transfers : List Transfer) (time_window : Int)
    (location_overlap : Bool) (s : FoldState) (pr : Microbiology × Microbiology)
    (h1 : ¬ pr.1.patient_id = pr.2.patient_id)
    (h2 : pySortedPair pr.1.patient_id pr.2.patient_id ∈ s.patient_pairs) :
    pairStep transfers time_window location_overlap s pr = s := by
  simp [pairStep, h1, h2]

/-- pairStep when the predicate is evaluated and fails: only the log
grows. -/
theorem pairStep_eval_false (transfers : List Transfer) (time_window : Int)
    (location_overlap : Bool) (s : FoldState) (pr : Microbiology × Microbiology)
    (h1 : ¬ pr.1.patient_id = pr.2.patient_id)
    (h2 : ¬ pySortedPair pr.1.patient_id pr.2.patient_id ∈ s.patient_pairs)
    (hr : check_temporal_spatial_link pr.1 pr.2
      (transfersOf transfers pr.1.patient_id) (transfersOf transfers pr.2.patient_id)
      time_window location_overlap = false) :
    pairStep transfers time_window location_overlap s pr =
      ⟨s.patient_pairs, s.clusters,
        s.evalLog ++ [(pySortedPair pr.1.patient_id pr.2.patient_id, false)]⟩ := by
  simp [pairStep, h1, h2, hr]

/-- pairStep when the predicate is evaluated and succeeds: the pair is
recorded, the clusters are extended and the log grows. -/
theorem pairStep_eval_true (transfers : List Transfer) (time_window : Int)
    (location_overlap : Bool) (s : FoldState) (pr : Microbiology × Microbiology)
    (h1 : ¬ pr.1.patient_id = pr.2.patient_id)
    (h2 : ¬ pySortedPair pr.1.patient_id pr.2.patient_id ∈ s.patient_pairs)
    (hr : check_temporal_spatial_link pr.1 pr.2
      (transfersOf transfers pr.1.patient_id) (transfersOf transfers pr.2.patient_id)
      time_window location_overlap = true) :
    pairStep transfers time_window location_overlap s pr =
      ⟨s.patient_pairs ++ [pySortedPair pr.1.patient_id pr.2.patient_id],
        addPairToClusters s.clusters pr.1 pr.2,
        s.evalLog ++ [(pySortedPair pr.1.patient_id pr.2.patient_id, true)]⟩ := by
  simp [pairStep, h1, h2, hr]

/-- One pair-loop step preserves the log invariant. -/
theorem pairStep_log_inv (transfers : List Transfer) (time_window : Int)
    (location_overlap : Bool) (s : FoldState) (pr : Microbiology × Microbiology)
    (h : PairLogInv s) :
    PairLogInv (pairStep transfers time_window location_overlap s pr) := by
  by_cases h1 : pr.1.patient_id = pr.2.patient_id
  · rwa [pairStep_self transfers time_window location_overlap s pr h1]
  · by_cases h2 : pySortedPair pr.1.patient_id pr.2.patient_id ∈ s.patient_pairs
    · rwa [pairStep_skip transfers time_window location_overlap s pr h1 h2]
    · cases hr : check_temporal_spatial_link pr.1 pr.2
          (transfersOf transfers pr.1.patient_id) (transfersOf transfers pr.2.patient_id)
          time_window location_overlap with
      | false =>
        rw [pairStep_eval_false transfers time_window location_overlap s pr h1 h2 hr]
        intro pq
        rw [countTrue_append, countTrue_false_single]
        simpa using h pq
      | true =>
        rw [pairStep_eval_true transfers time_window location_overlap s pr h1 h2 hr]
        intro pq
        rw [countTrue_append, countTrue_true_single]
        by_cases hpq : pySortedPair pr.1.patient_id pr.2.patient_id = pq
        · subst hpq
          rw [h _, if_neg h2]
          simp
        · have hpq2 : pq ≠ pySortedPair pr.1.patient_id pr.2.patient_id :=
            fun hh => hpq hh.symm
          rw [if_neg hpq, h pq]
          by_cases hin : pq ∈ s.patient_pairs
          · simp [hin]
          · simp [hin, hpq2]

/-- The whole pair loop preserves the log invariant. -/
theorem foldl_pairStep_log_inv (transfers : List Transfer) (time_window : Int)
    (location_overlap : Bool) (l : List (Microbiology × Microbiology)) (s : FoldState)
    (h : PairLogInv s) :
    PairLogInv (l.foldl (pairStep transfers time_window location_overlap) s) := by
  induction l generalizing s with
  | nil => exact h
  | cons pr l ih =>
    simp only [List.foldl_cons]
    exact ih _ (pairStep_log_inv transfers time_window location_overlap s pr h)

/-- The pair loop run from the empty state satisfies the log invariant. -/
theorem processInfection_log_inv (transfers : List Transfer) (tests : List Microbiology)
    (time_window : Int) (location_overlap : Bool) :
    PairLogInv (processInfection transfers tests time_window location_overlap) :=
  foldl_pairStep_log_inv transfers time_window location_overlap (allTestPairs tests)
    ⟨[], [], []⟩ (by intro pq; simp [countTrue])

/-- C4 as amended: per infection, a canonical patient pair has at most one
successful link-predicate evaluation in a run — after the first satisfying
test pair every later test pair for those two patients is skipped.  A
failing evaluation does not record the pair, so the predicate itself can
run more than once for the same two patients, as the reevaluation
counterexample shows. -/
theorem c4_at_most_one_linking_eval (db : Snapshot) (time_window : Int)
    (location_overlap : Bool) (inf : String) (pq : String × String) :
    countTrue pq (evalLogFor (find_clusters_eval_log db time_window location_overlap) inf)
      ≤ 1 := by
  unfold evalLogFor
  cases hf : (find_clusters_eval_log db time_window location_overlap).find?
      fun g => g.1 == inf with
  | none => simp [countTrue]
  | some g =>
    have hg := List.mem_of_find?_eq_some hf
    unfold find_clusters_eval_log at hg
    obtain ⟨g0, hg0, hge⟩ := List.mem_map.mp hg
    have hlog : g.2 = (processInfection db.transfers g0.2 time_window
        location_overlap).evalLog := by rw [← hge]
    show countTrue pq g.2 ≤ 1
    rw [hlog, processInfection_log_inv db.transfers g0.2 time_window location_overlap pq]
    split <;> omega

/-- Inserting a test whose infection differs from inf never creates a
group keyed inf. -/
theorem noKey_addToInfectionGroups (gs : List (String × List Microbiology))
    (t : Microbiology) (inf : String) (hgs : ∀ g ∈ gs, g.1 ≠ inf)
    (ht : t.infection ≠ inf) :
    ∀ g ∈ addToInfectionGroups gs t, g.1 ≠ inf := by
  induction gs with
  | nil =>
    intro g hg
    simp only [addToInfectionGroups, List.mem_singleton] at hg
    subst hg
    exact ht
  | cons kv gs ih =>
    obtain ⟨k, v⟩ := kv
    by_cases hk : k = t.infection
    · simp only [addToInfectionGroups, if_pos hk]
      intro g hg
      rcases List.mem_cons.mp hg with rfl | hgtail
      · exact hgs (k, v) (List.mem_cons_self _ _)
      · exact hgs g (List.mem_cons_of_mem _ hgtail)
    · simp only [addToInfectionGroups, if_neg hk]
      intro g hg
      rcases List.mem_cons.mp hg with rfl | hgtail
      · exact hgs (k, v) (List.mem_cons_self _ _)
      · exact ih (fun g hg => hgs g (List.mem_cons_of_mem _ hg)) g hgtail

/-- Folding tests whose infections all differ from inf never creates a
group keyed inf. -/
theorem noKey_foldGroups (inf : String) (tests : List Microbiology) :
    ∀ (gs : List (String × List Microbiology)),
      (∀ t ∈ tests, t.infection ≠ inf) → (∀ g ∈ gs, g.1 ≠ inf) →
      ∀ g ∈ tests.foldl addToInfectionGroups gs, g.1 ≠ inf := by
  induction tests with
  | nil =>
    intro gs _ hgs
    simpa using hgs
  | cons t ts ih =>
    intro gs ht hgs
    simp only [List.foldl_cons]
    exact ih _ (fun u hu => ht u (List.mem_cons_of_mem _ hu))
      (noKey_addToInfectionGroups gs t inf hgs (ht t (List.mem_cons_self _ _)))

/-- Ordered insertion grows the length by one. -/
theorem length_insertSortedStr (x : String) (l : List String) :
    (insertSortedStr x l).length = l.length + 1 := by
  induction l with
  | nil => rfl
  | cons y ys ih =>
    simp only [insertSortedStr]
    split
    · simp [ih]
    · simp

/-- Sorting a patient list preserves its length. -/
theorem length_pySorted (l : List String) : (pySorted l).length = l.length := by
  suffices h : ∀ acc : List String,
      (l.foldl (fun acc x => insertSortedStr x acc) acc).length = acc.length + l.length by
    simpa using h []
  induction l with
  | nil => intro acc; simp
  | cons x xs ih =>
    intro acc
    simp only [List.foldl_cons]
    rw [ih (insertSortedStr x acc), length_insertSortedStr, List.length_cons]
    omega

/-- Python set insertion never shrinks the set. -/
theorem length_le_setInsert (s : List String) (x : String) :
    s.length ≤ (setInsert s x).length := by
  unfold setInsert
  split
  · exact le_refl _
  · simp

/-- The assembly step only produces clusters with at least two patients,
provided the linked pair has distinct patients. -/
theorem twoLe_addPairToClusters (cs : List Cluster) (test1 test2 : Microbiology)
    (hne : test1.patient_id ≠ test2.patient_id)
    (h : ∀ c ∈ cs, 2 ≤ c.patients.length) :
    ∀ c ∈ addPairToClusters cs test1 test2, 2 ≤ c.patients.length := by
  induction cs with
  | nil =>
    intro c hc
    simp only [addPairToClusters, List.mem_singleton] at hc
    subst hc
    have hnm : test2.patient_id ∉ [test1.patient_id] := by
      simp [Ne.symm hne]
    show 2 ≤ (setInsert [test1.patient_id] test2.patient_id).length
    rw [setInsert, if_neg hnm]
    simp
  | cons c cs ih =>
    intro d hd
    by_cases hc : test1.patient_id ∈ c.patients ∨ test2.patient_id ∈ c.patients
    · simp only [addPairToClusters, if_pos hc] at hd
      rcases List.mem_cons.mp hd with rfl | hdcs
      · exact le_trans (le_trans (h c (List.mem_cons_self _ _)) (length_le_setInsert _ _))
          (length_le_setInsert _ _)
      · exact h d (List.mem_cons_of_mem _ hdcs)
    · simp only [addPairToClusters, if_neg hc] at hd
      rcases List.mem_cons.mp hd with rfl | hdcs
      · exact h d (List.mem_cons_self _ _)
      · exact ih (fun e he => h e (List.mem_cons_of_mem _ he)) d hdcs

/-- One pair-loop step keeps every cluster at two or more patients. -/
theorem twoLe_pairStep (transfers : List Transfer) (time_window : Int)
    (location_overlap : Bool) (s : FoldState) (pr : Microbiology × Microbiology)
    (h : ∀ c ∈ s.clusters, 2 ≤ c.patients.length) :
    ∀ c ∈ (pairStep transfers time_window location_overlap s pr).clusters,
      2 ≤ c.patients.length := by
  by_cases h1 : pr.1.patient_id = pr.2.patient_id
  · rwa [pairStep_self transfers time_window location_overlap s pr h1]
  · by_cases h2 : pySortedPair pr.1.patient_id pr.2.patient_id ∈ s.patient_pairs
    · rwa [pairStep_skip transfers time_window location_overlap s pr h1 h2]
    · cases hr : check_temporal_spatial_link pr.1 pr.2
          (transfersOf transfers pr.1.patient_id) (transfersOf transfers pr.2.patient_id)
          time_window location_overlap with
      | false =>
        rw [pairStep_eval_false transfers time_window location_overlap s pr h1 h2 hr]
        exact h
      | true =>
        rw [pairStep_eval_true transfers time_window location_overlap s pr h1 h2 hr]
        exact twoLe_addPairToClusters s.clusters pr.1 pr.2 h1 h

/-- The whole pair loop keeps every cluster at two or more patients. -/
theorem twoLe_foldl_pairStep (transfers : List Transfer) (time_window : Int)
    (location_overlap : Bool) (l : List (Microbiology × Microbiology)) (s : FoldState)
    (h : ∀ c ∈ s.clusters, 2 ≤ c.patients.length) :
    ∀ c ∈ (l.foldl (pairStep transfers time_window location_overlap) s).clusters,
      2 ≤ c.patients.length := by
  induction l generalizing s with
  | nil => exact h
  | cons pr l ih =>
    simp only [List.foldl_cons]
    exact ih _ (twoLe_pairStep transfers time_window location_overlap s pr h)

/-- Both components of an index pair produced by the double loop are
members of the test list. -/
theorem mem_of_mem_allTestPairs (ts : List Microbiology)
    (pr : Microbiology × Microbiology) (h : pr ∈ allTestPairs ts) :
    pr.1 ∈ ts ∧ pr.2 ∈ ts := by
  induction ts with
  | nil => simp [allTestPairs] at h
  | cons t ts ih =>
    simp only [allTestPairs, List.mem_append, List.mem_map] at h
    rcases h with ⟨u, hu, rfl⟩ | h
    · exact ⟨List.mem_cons_self _ _, List.mem_cons_of_mem _ hu⟩
    · obtain ⟨h1, h2⟩ := ih h
      exact ⟨List.mem_cons_of_mem _ h1, List.mem_cons_of_mem _ h2⟩

/-- A property shared by all group members and by the inserted test still
holds for all group members after a dictionary insertion. -/
theorem allP_addToInfectionGroups (P : Microbiology → Prop)
    (gs : List (String × List Microbiology)) (t0 : Microbiology)
    (hgs : ∀ g ∈ gs, ∀ t ∈ g.2, P t) (ht : P t0) :
    ∀ g ∈ addToInfectionGroups gs t0, ∀ t ∈ g.2, P t := by
  induction gs with
  | nil =>
    intro g hg t htm
    simp only [addToInfectionGroups, List.mem_singleton] at hg
    subst hg
    simp only [List.mem_singleton] at htm
    subst htm
    exact ht
  | cons kv gs ih =>
    obtain ⟨k, v⟩ := kv
    by_cases hk : k = t0.infection
    · simp only [addToInfectionGroups, if_pos hk]
      intro g hg t htm
      rcases List.mem_cons.mp hg with rfl | hgtail
      · rcases List.mem_append.mp htm with hv | hs
        · exact hgs (k, v) (List.mem_cons_self _ _) t hv
        · simp only [List.mem_singleton] at hs
          subst hs
          exact ht
      · exact hgs g (List.mem_cons_of_mem _ hgtail) t htm
    · simp only [addToInfectionGroups, if_neg hk]
      intro g hg t htm
      rcases List.mem_cons.mp hg with rfl | hgtail
      · exact hgs (k, v) (List.mem_cons_self _ _) t htm
      · exact ih (fun g hg => hgs g (List.mem_cons_of_mem _ hg)) g hgtail t htm

/-- A property of every folded test holds for every member of every
resulting group. -/
theorem allP_foldGroups (P : Microbiology → Prop) (ts : List Microbiology) :
    ∀ gs : List (String × List Microbiology),
      (∀ g ∈ gs, ∀ t ∈ g.2, P t) → (∀ t ∈ ts, P t) →
      ∀ g ∈ ts.foldl addToInfectionGroups gs, ∀ t ∈ g.2, P t := by
  induction ts with
  | nil =>
    intro gs hgs _
    simpa using hgs
  | cons t ts ih =>
    intro gs hgs hts
    simp only [List.foldl_cons]
    exact ih _ (allP_addToInfectionGroups P gs t hgs (hts t (List.mem_cons_self _ _)))
      (fun u hu => hts u (List.mem_cons_of_mem _ hu))

/-- A dictionary insertion keeps every group member carrying the group
key as its infection. -/
theorem key_addToInfectionGroups (gs : List (String × List Microbiology))
    (t0 : Microbiology) (hgs : ∀ g ∈ gs, ∀ t ∈ g.2, t.infection = g.1) :
    ∀ g ∈ addToInfectionGroups gs t0, ∀ t ∈ g.2, t.infection = g.1 := by
  induction gs with
  | nil =>
    intro g hg t htm
    simp only [addToInfectionGroups, List.mem_singleton] at hg
    subst hg
    simp only [List.mem_singleton] at htm
    subst htm
    rfl
  | cons kv gs ih =>
    obtain ⟨k, v⟩ := kv
    by_cases hk : k = t0.infection
    · simp only [addToInfectionGroups, if_pos hk]
      intro g hg t htm
      rcases List.mem_cons.mp hg with rfl | hgtail
      · rcases List.mem_append.mp htm with hv | hs
        · exact hgs (k, v) (List.mem_cons_self _ _) t hv
        · simp only [List.mem_singleton] at hs
          subst hs
          exact hk.symm
      · exact hgs g (List.mem_cons_of_mem _ hgtail) t htm
    · simp only [addToInfectionGroups, if_neg hk]
      intro g hg t htm
      rcases List.mem_cons.mp hg with rfl | hgtail
      · exact hgs (k, v) (List.mem_cons_self _ _) t htm
      · exact ih (fun g hg => hgs g (List.mem_cons_of_mem _ hg)) g hgtail t htm

/-- In every group built by the fold, every member test carries the group
key as its infection. -/
theorem key_foldGroups (ts : List Microbiology) :
    ∀ gs : List (String × List Microbiology),
      (∀ g ∈ gs, ∀ t ∈ g.2, t.infection = g.1) →
      ∀ g ∈ ts.foldl addToInfectionGroups gs, ∀ t ∈ g.2, t.infection = g.1 := by
  induction ts with
  | nil =>
    intro gs hgs
    simpa using hgs
  | cons t ts ih =>
    intro gs hgs
    simp only [List.foldl_cons]
    exact ih _ (key_addToInfectionGroups gs t hgs)

/-- A pair-loop step leaves the cluster list untouched when the pair is a
self pair or its link evaluation fails. -/
theorem pairStep_clusters_unchanged (transfers : List Transfer) (time_window : Int)
    (location_overlap : Bool) (s : FoldState) (pr : Microbiology × Microbiology)
    (h : pr.1.patient_id = pr.2.patient_id ∨
      check_temporal_spatial_link pr.1 pr.2
        (transfersOf transfers pr.1.patient_id) (transfersOf transfers pr.2.patient_id)
        time_window location_overlap = false) :
    (pairStep transfers time_window location_overlap s pr).clusters = s.clusters := by
  by_cases h1 : pr.1.patient_id = pr.2.patient_id
  · rw [pairStep_self transfers time_window location_overlap s pr h1]
  · have hr := h.resolve_left h1
    by_cases h2 : pySortedPair pr.1.patient_id pr.2.patient_id ∈ s.patient_pairs
    · rw [pairStep_skip transfers time_window location_overlap s pr h1 h2]
    · rw [pairStep_eval_false transfers time_window location_overlap s pr h1 h2 hr]

/-- When every visited pair is a self pair or fails its link evaluation,
the whole pair loop leaves the cluster list untouched. -/
theorem foldl_clusters_unchanged (transfers : List Transfer) (time_window : Int)
    (location_overlap : Bool) (l : List (Microbiology × Microbiology)) :
    ∀ s : FoldState,
      (∀ pr ∈ l, pr.1.patient_id = pr.2.patient_id ∨
        check_temporal_spatial_link pr.1 pr.2
          (transfersOf transfers pr.1.patient_id)
          (transfersOf transfers pr.2.patient_id)
          time_window location_overlap = false) →
      (l.foldl (pairStep transfers time_window location_overlap) s).clusters =
        s.clusters := by
  induction l with
  | nil => intro s _; rfl
  | cons pr l ih =>
    intro s h
    simp only [List.foldl_cons]
    rw [ih _ (fun u hu => h u (List.mem_cons_of_mem _ hu)),
      pairStep_clusters_unchanged transfers time_window location_overlap s pr
        (h pr (List.mem_cons_self _ _))]

/-- C6: an infection with no positive test gets an empty cluster list on
lookup (the dictionary simply has no key for it); an infection whose
positive tests produce zero linked pairs — every link evaluation between
distinct patients fails, for instance because no patient has a stay —
also gets an empty cluster list; and every cluster the run emits, for any
infection, has at least two patients — no smaller cluster is ever
produced.  Detection is total: it cannot fail on empty data. -/
theorem c6_empty_data (db : Snapshot) (time_window : Int) (location_overlap : Bool)
    (inf : String) :
    ((∀ t ∈ db.microbiology, t.result = "positive" → t.infection ≠ inf) →
      clustersFor (find_clusters_from_db db time_window location_overlap) inf = []) ∧
    ((∀ t1 ∈ db.microbiology, ∀ t2 ∈ db.microbiology,
        t1.result = "positive" → t2.result = "positive" →
        t1.infection = inf → t2.infection = inf →
        t1.patient_id ≠ t2.patient_id →
        check_temporal_spatial_link t1 t2
          (transfersOf db.transfers t1.patient_id)
          (transfersOf db.transfers t2.patient_id)
          time_window location_overlap = false) →
      clustersFor (find_clusters_from_db db time_window location_overlap) inf = []) ∧
    ∀ c ∈ clustersFor (find_clusters_from_db db time_window location_overlap) inf,
      2 ≤ c.patients.length := by
  refine ⟨?_, ?_, ?_⟩
  · intro h
    have hnone : (find_clusters_from_db db time_window location_overlap).find?
        (fun g => g.1 == inf) = none := by
      rw [List.find?_eq_none]
      intro g hg
      unfold find_clusters_from_db at hg
      obtain ⟨g0, hg0, hge⟩ := List.mem_map.mp hg
      have hkey : g0.1 ≠ inf := by
        refine noKey_foldGroups inf
          (db.microbiology.filter fun t => t.result == "positive") [] ?_ (by simp) g0 hg0
        intro t htf
        obtain ⟨htm, hres⟩ := List.mem_filter.mp htf
        exact h t htm (by simpa using hres)
      have : g.1 = g0.1 := by rw [← hge]
      simp [this, hkey]
    unfold clustersFor
    rw [hnone]
    rfl
  · intro h
    unfold clustersFor
    cases hf : (find_clusters_from_db db time_window location_overlap).find?
        (fun g => g.1 == inf) with
    | none => rfl
    | some g =>
      have hkey : g.1 = inf := by
        have := List.find?_some hf
        simpa using this
      have hg := List.mem_of_find?_eq_some hf
      unfold find_clusters_from_db at hg
      obtain ⟨g0, hg0, hge⟩ := List.mem_map.mp hg
      have hg01 : g0.1 = inf := by
        rw [← hge] at hkey
        exact hkey
      have hmem : ∀ t ∈ g0.2, t ∈ db.microbiology ∧ t.result = "positive" := by
        refine allP_foldGroups (fun t => t ∈ db.microbiology ∧ t.result = "positive")
          (db.microbiology.filter fun t => t.result == "positive") [] (by simp) ?_ g0 hg0
        intro t htf
        obtain ⟨htm, hres⟩ := List.mem_filter.mp htf
        exact ⟨htm, by simpa using hres⟩
      have hinf : ∀ t ∈ g0.2, t.infection = inf := by
        intro t htm
        rw [← hg01]
        exact key_foldGroups (db.microbiology.filter fun t => t.result == "positive")
          [] (by simp) g0 hg0 t htm
      have hcl : g.2 = ((processInfection db.transfers g0.2 time_window
          location_overlap).clusters).map sortClusterPatients := by rw [← hge]
      show g.2 = []
      rw [hcl]
      unfold processInfection
      rw [foldl_clusters_unchanged db.transfers time_window location_overlap
        (allTestPairs g0.2) ⟨[], [], []⟩ ?_]
      · rfl
      · intro pr hpr
        obtain ⟨h1m, h2m⟩ := mem_of_mem_allTestPairs g0.2 pr hpr
        by_cases hpp : pr.1.patient_id = pr.2.patient_id
        · exact Or.inl hpp
        · exact Or.inr (h pr.1 (hmem pr.1 h1m).1 pr.2 (hmem pr.2 h2m).1
            (hmem pr.1 h1m).2 (hmem pr.2 h2m).2 (hinf pr.1 h1m) (hinf pr.2 h2m) hpp)
  · intro c hc
    unfold clustersFor at hc
    cases hf : (find_clusters_from_db db time_window location_overlap).find?
        (fun g => g.1 == inf) with
    | none => rw [hf] at hc; simp at hc
    | some g =>
      rw [hf] at hc
      simp only [Option.map, Option.getD] at hc
      have hg := List.mem_of_find?_eq_some hf
      unfold find_clusters_from_db at hg
      obtain ⟨g0, hg0, hge⟩ := List.mem_map.mp hg
      have hcl : g.2 = ((processInfection db.transfers g0.2 time_window
          location_overlap).clusters).map sortClusterPatients := by rw [← hge]
      rw [hcl] at hc
      obtain ⟨c0, hc0, hcs⟩ := List.mem_map.mp hc
      have h0 : 2 ≤ c0.patients.length :=
        twoLe_foldl_pairStep db.transfers time_window location_overlap
          (allTestPairs g0.2) ⟨[], [], []⟩ (by intro c hcm; simp at hcm) c0 hc0
      rw [← hcs]
      show 2 ≤ (pySorted c0.patients).length
      rw [length_pySorted]
      exact h0

/-- C6 witness: infection Y has no positive test in the exMergeLate
snapshot, so its cluster list is empty; with location overlap required the
same snapshot has positive tests for X but no stays, every link evaluation
fails, and the cluster list of X is empty; and the cluster emitted for X
without the location requirement has at least two patients. -/
theorem c6_empty_data_witness :
    clustersFor (find_clusters_from_db exMergeLate 5 false) "Y" = [] ∧
      clustersFor (find_clusters_from_db exMergeLate 5 true) "X" = [] ∧
      2 ≤ (Cluster.mk ["PA", "PB", "PC"] 0 1).patients.length :=
  ⟨(c6_empty_data exMergeLate 5 false "Y").1 (by decide),
    (c6_empty_data exMergeLate 5 true "X").2.1 (by decide),
    (c6_empty_data exMergeLate 5 false "X").2.2 ⟨["PA", "PB", "PC"], 0, 1⟩ (by decide)⟩
